import Mathlib

/-!
Verification of the network relay and connection-identity subsystem of a mesh
sidecar proxy (src/proxy.rs): the bidirectional tunnel relay `copy_hbone`, the
W3C trace-context `TraceParent` codec, forwarded-header source resolution,
transparent/freebind socket policy, and the proxy orchestrator constructor.

The Rust source is shallowly embedded: strings become `List Char`, machine
integers become `Nat` with explicit range bounds, fallible operations return
`Option`/`Except`, and calls into external modules (tokio, the kernel socket
layer, the listener-role submodules) are passed in as explicit outcome
parameters, with call traces recorded where a claim is about which calls occur.
-/

namespace Ztunnel

/-- Lowercase hexadecimal digit characters, as emitted by the Rust `x` format. -/
def hexDigitChar (d : Nat) : Char :=
  match d with
  | 0 => '0'
  | 1 => '1'
  | 2 => '2'
  | 3 => '3'
  | 4 => '4'
  | 5 => '5'
  | 6 => '6'
  | 7 => '7'
  | 8 => '8'
  | 9 => '9'
  | 10 => 'a'
  | 11 => 'b'
  | 12 => 'c'
  | 13 => 'd'
  | 14 => 'e'
  | 15 => 'f'
  | _ => '0'

/-- Hex digits of a number, most significant first; empty for zero
(the core loop of Rust hexadecimal formatting). -/
def natHexDigits : Nat → List Char
  | 0 => []
  | n + 1 => natHexDigits ((n + 1) / 16) ++ [hexDigitChar ((n + 1) % 16)]
decreasing_by exact Nat.div_lt_self (Nat.succ_pos n) (by decide)

/-- Rust hexadecimal rendering of an unsigned integer: at least one digit. -/
def rustHex (n : Nat) : List Char :=
  if n = 0 then ['0'] else natHexDigits n

/-- Rust fixed-width zero-padded hexadecimal formatting, as in the format items
02x, 032x, 016x of the TraceParent Debug implementation. -/
def fmtHexPad (w n : Nat) : List Char :=
  List.replicate (w - (rustHex n).length) '0' ++ rustHex n

/-- Value of one hexadecimal digit character, lower or upper case, as accepted
by Rust from_str_radix with radix 16. -/
def hexDigitVal (c : Char) : Option Nat :=
  if '0' ≤ c ∧ c ≤ '9' then some (c.toNat - 48)
  else if 'a' ≤ c ∧ c ≤ 'f' then some (c.toNat - 87)
  else if 'A' ≤ c ∧ c ≤ 'F' then some (c.toNat - 55)
  else none

/-- Digit-accumulation loop of Rust from_str_radix for an unsigned type with
maximum value `maxVal`: checked multiply-and-add, failing on overflow or on a
non-digit character. -/
def parseHexDigits (maxVal : Nat) : List Char → Nat → Option Nat
  | [], acc => some acc
  | c :: rest, acc =>
    match hexDigitVal c with
    | none => none
    | some d =>
      if acc * 16 + d ≤ maxVal then parseHexDigits maxVal rest (acc * 16 + d) else none

/-- Rust from_str_radix with radix 16 for an unsigned integer type with maximum
value `maxVal`: rejects the empty string, strips one leading plus sign (which
must be followed by at least one digit), then accumulates checked digits.
A minus sign is not stripped for unsigned types and fails as a non-digit. -/
def fromStrRadix16 (maxVal : Nat) (cs : List Char) : Option Nat :=
  match cs with
  | [] => none
  | c :: rest =>
    if c = '+' then
      match rest with
      | [] => none
      | _ => parseHexDigits maxVal rest 0
    else parseHexDigits maxVal (c :: rest) 0

/-- Rust str::split on a single separator character: splits at every occurrence
of the separator, keeping empty pieces; the result is always nonempty. -/
def splitOnChar (sep : Char) : List Char → List (List Char)
  | [] => [[]]
  | c :: rest =>
    if c = sep then [] :: splitOnChar sep rest
    else
      match splitOnChar sep rest with
      | [] => [[c]]
      | s :: ss => (c :: s) :: ss

/-- A traceparent, as defined by the W3C trace-context specification
(struct TraceParent in src/proxy.rs). Fields are machine integers
u8 / u128 / u64 / u8, embedded as bounded naturals. -/
structure TraceParent where
  version : Nat
  trace_id : Nat
  parent_id : Nat
  flags : Nat
deriving DecidableEq, Repr

def u8Max : Nat := 2 ^ 8 - 1

def u64Max : Nat := 2 ^ 64 - 1

def u128Max : Nat := 2 ^ 128 - 1

/-- The Debug rendering of a TraceParent from src/proxy.rs: the four fields in
fixed-width zero-padded lowercase hex, separated by dashes
(format string 02x-032x-016x-02x). This is also the header value rendering. -/
def TraceParent.debugFmt (t : TraceParent) : List Char :=
  fmtHexPad 2 t.version ++
    '-' :: (fmtHexPad 32 t.trace_id ++ '-' :: (fmtHexPad 16 t.parent_id ++ '-' :: fmtHexPad 2 t.flags))

/-- Outcome of TraceParent::try_from: a parsed value, a returned error, or a
Rust panic (an out-of-bounds slice index aborts instead of returning). -/
inductive TPResult where
  | ok (t : TraceParent)
  | err
  | panic
deriving DecidableEq, Repr

/-- TryFrom for TraceParent from src/proxy.rs: bail unless the length is
exactly 55; split on dashes; decode segs 0..3 as hex integers of types
u8, u128, u64, u8 in struct-literal field order, propagating decode errors.
Indexing `segs` beyond its length is an out-of-bounds panic in Rust, modelled
as the `panic` outcome. -/
def TraceParent.try_from (value : List Char) : TPResult :=
  if value.length ≠ 55 then .err
  else
    match splitOnChar '-' value with
    | [] => .panic
    | s0 :: rest =>
      match fromStrRadix16 u8Max s0 with
      | none => .err
      | some v =>
        match rest with
        | [] => .panic
        | s1 :: rest1 =>
          match fromStrRadix16 u128Max s1 with
          | none => .err
          | some tid =>
            match rest1 with
            | [] => .panic
            | s2 :: rest2 =>
              match fromStrRadix16 u64Max s2 with
              | none => .err
              | some pid =>
                match rest2 with
                | [] => .panic
                | s3 :: _ =>
                  match fromStrRadix16 u8Max s3 with
                  | none => .err
                  | some fl => .ok ⟨v, tid, pid, fl⟩

/-- One finite directed I/O source feeding one relay direction: the byte chunks
its reads deliver in order, followed by either clean end-of-stream
(readFail = none) or an I/O error (readFail = some e). -/
structure InStream where
  chunks : List (List Nat)
  readFail : Option Nat
deriving DecidableEq, Repr

/-- Observable state of one write half: the bytes written through it and
whether its shutdown (half-close) has been performed. -/
structure WriteState where
  written : List Nat
  halfClosed : Bool
deriving DecidableEq, Repr

/-- Total number of bytes a stream delivers before its end. -/
def streamLen (s : InStream) : Nat := (s.chunks.map List.length).sum

/-- tokio::io::copy from a buffered reader into a buffered writer: forwards
chunks while counting bytes until the source ends; a clean end-of-stream yields
the byte count, a read error yields that error. -/
def ioCopy (w : WriteState) : List (List Nat) → Option Nat → Except Nat (Nat × WriteState)
  | [], none => .ok (0, w)
  | [], some e => .error e
  | c :: rest, f =>
    match ioCopy { w with written := w.written ++ c } rest f with
    | .ok (n, w2) => .ok (c.length + n, w2)
    | .error e => .error e

/-- AsyncWriteExt::shutdown on a write half: fails with the given error if the
transport refuses the shutdown, otherwise records the half-close. -/
def shutdownWrite (w : WriteState) (sErr : Option Nat) : Except Nat WriteState :=
  match sErr with
  | some e => .error e
  | none => .ok { w with halfClosed := true }

/-- One direction of copy_hbone: copy the whole source into a fresh write half,
then explicitly shut that write half down; the byte count is produced only when
both the copy and the shutdown succeed. -/
def runDirection (src : InStream) (sErr : Option Nat) : Except Nat (Nat × WriteState) :=
  match ioCopy ⟨[], false⟩ src.chunks src.readFail with
  | .error e => .error e
  | .ok (n, w) =>
    match shutdownWrite w sErr with
    | .error e => .error e
    | .ok w2 => .ok (n, w2)

/-- Result of a successful copy_hbone relay: the returned counter pair
(sent, received) together with the final states of the two write halves. -/
structure RelayResult where
  sent : Nat
  received : Nat
  tcpWrite : WriteState
  tunnelWrite : WriteState
deriving DecidableEq, Repr

/-- copy_hbone from src/proxy.rs over finite streams: run the
tunnel-to-tcp direction (client_to_server, counting `received`) and the
tcp-to-tunnel direction (server_to_client, counting `sent`), join them with
fail-fast semantics, and on joint success return (sent, received) and the two
shut-down write halves. try_join reports whichever direction fails; when both
fail the model deterministically reports the tunnel-to-tcp direction's error. -/
def copy_hbone (tunnelIn tcpIn : InStream) (tcpShutdownErr tunnelShutdownErr : Option Nat) :
    Except Nat RelayResult :=
  match runDirection tunnelIn tcpShutdownErr, runDirection tcpIn tunnelShutdownErr with
  | .error e, _ => .error e
  | .ok _, .error e => .error e
  | .ok (recv, wTcp), .ok (snt, wTun) => .ok ⟨snt, recv, wTcp, wTun⟩

/-- An IP address: an IPv4 address as four octets, or an IPv6 address as its
eight 16-bit groups. -/
inductive IpAddr where
  | v4 (a b c d : Nat)
  | v6 (groups : List Nat)
deriving DecidableEq, Repr

/-- A socket address: an IP address plus a port. -/
structure SockAddr where
  ip : IpAddr
  port : Nat
deriving DecidableEq, Repr

/-- Value of one decimal digit character. -/
def decDigitVal (c : Char) : Option Nat :=
  if '0' ≤ c ∧ c ≤ '9' then some (c.toNat - 48) else none

/-- Modelled from the spec: a run of decimal digits and its value (the number
reader of the Rust standard library address parsers, which are not under
src/). Rejects the empty string and any non-digit character. -/
def parseDecAll (s : List Char) : Option Nat :=
  if s ≠ [] ∧ s.all (fun c => (decDigitVal c).isSome) = true then
    some (s.foldl (fun a c => a * 10 + (decDigitVal c).getD 0) 0)
  else none

/-- Modelled from the spec: one IPv4 octet of the Rust standard library address
parser (not under src/): decimal digits, value at most 255, no leading zero. -/
def parseOctet (s : List Char) : Option Nat :=
  match parseDecAll s with
  | some v => if v ≤ 255 ∧ (s.head? = some '0' → s.length = 1) then some v else none
  | none => none

/-- Modelled from the spec: Ipv4Addr string parsing of the Rust standard
library (not under src/): exactly four dot-separated octets. -/
def ipv4Parse (s : List Char) : Option IpAddr :=
  match splitOnChar '.' s with
  | [a, b, c, d] =>
    match parseOctet a, parseOctet b, parseOctet c, parseOctet d with
    | some a2, some b2, some c2, some d2 => some (.v4 a2 b2 c2 d2)
    | _, _, _, _ => none
  | _ => none

/-- Modelled from the spec: one IPv6 group of the Rust standard library address
parser (not under src/): one to four hexadecimal digits. -/
def parseGroup (s : List Char) : Option Nat :=
  if s ≠ [] ∧ s.length ≤ 4 ∧ s.all (fun c => (hexDigitVal c).isSome) = true then
    some (s.foldl (fun a c => a * 16 + (hexDigitVal c).getD 0) 0)
  else none

/-- Split a character list at the first occurrence of two adjacent colons. -/
def splitDoubleColon : List Char → Option (List Char × List Char)
  | ':' :: ':' :: rest => some ([], rest)
  | c :: rest =>
    match splitDoubleColon rest with
    | some (l, r) => some (c :: l, r)
    | none => none
  | [] => none

/-- Colon-separated group list of an IPv6 fragment; the empty fragment stands
for no groups. -/
def parseGroupList (s : List Char) : Option (List Nat) :=
  if s = [] then some [] else (splitOnChar ':' s).mapM parseGroup

/-- Modelled from the spec: Ipv6Addr string parsing of the Rust standard
library (not under src/), for the hexadecimal-groups form: eight
colon-separated groups, or fewer with one double-colon standing for the
elided zero groups. -/
def ipv6Parse (s : List Char) : Option IpAddr :=
  match splitDoubleColon s with
  | some (l, r) =>
    if (splitDoubleColon r).isSome then none
    else
      match parseGroupList l, parseGroupList r with
      | some gl, some gr =>
        if gl.length + gr.length ≤ 7 then
          some (.v6 (gl ++ List.replicate (8 - gl.length - gr.length) 0 ++ gr))
        else none
      | _, _ => none
  | none =>
    match parseGroupList s with
    | some g => if g.length = 8 then some (.v6 g) else none
    | none => none

/-- Modelled from the spec: IpAddr string parsing of the Rust standard library
(not under src/): an IPv4 literal, or else an IPv6 literal. -/
def ipAddrParse (s : List Char) : Option IpAddr :=
  match ipv4Parse s with
  | some i => some i
  | none => ipv6Parse s

/-- Modelled from the spec: port parsing of the Rust standard library socket
address parser (not under src/): decimal digits, value at most 65535. -/
def portParse (s : List Char) : Option Nat :=
  match parseDecAll s with
  | some v => if v ≤ 65535 then some v else none
  | none => none

/-- Modelled from the spec: SocketAddr string parsing of the Rust standard
library (not under src/): either an IPv4 literal, a colon and a port, or a
bracketed IPv6 literal, a colon and a port. -/
def socketAddrParse (s : List Char) : Option SockAddr :=
  match s with
  | '[' :: rest =>
    match splitOnChar ']' rest with
    | [ip6str, after] =>
      match after with
      | ':' :: pstr =>
        match ipv6Parse ip6str, portParse pstr with
        | some i, some p => some ⟨i, p⟩
        | _, _ => none
      | _ => none
    | _ => none
  | _ =>
    match splitOnChar ':' s with
    | [ipstr, pstr] =>
      match ipv4Parse ipstr, portParse pstr with
      | some i, some p => some ⟨i, p⟩
      | _, _ => none
    | _ => none

/-- parse_socket_or_ip from src/proxy.rs: remove square brackets around an
IPv6 address (only when the leading bracket and the trailing bracket are both
present), then parse as a socket address keeping only its IP, or failing that
as a bare IP address. -/
def parse_socket_or_ip (i : List Char) : Option IpAddr :=
  let stripped :=
    match i with
    | '[' :: rest => if rest.getLast? = some ']' then rest.dropLast else i
    | _ => i
  match socketAddrParse stripped with
  | some sa => some sa.ip
  | none => ipAddrParse stripped

/-- Whether a character may appear in an unquoted value of the forwarded
header grammar (an HTTP token character). -/
def isTokenChar (c : Char) : Bool :=
  c.isAlphanum || (['!', '#', '$', '%', '&', '*', '+', '-', '.', '^', '_', '|', '~']).contains c

/-- Leading and trailing spaces removed. -/
def trimSpaces (s : List Char) : List Char :=
  ((s.dropWhile (fun c => c = ' ')).reverse.dropWhile (fun c => c = ' ')).reverse

/-- Split at the first occurrence of a character, if any. -/
def splitFirstChar (sep : Char) : List Char → Option (List Char × List Char)
  | [] => none
  | c :: rest =>
    if c = sep then some ([], rest)
    else
      match splitFirstChar sep rest with
      | some (l, r) => some (c :: l, r)
      | none => none

/-- Modelled from the spec: the value of one forwarded-header pair per the
standard grammar (the external Forwarded parser crate is not under src/):
either a quoted string, whose closing quote must end the value and whose
content is returned without the quotes, or a nonempty run of token characters;
anything else (such as an unquoted colon) is a parse error. -/
def parseValue (v : List Char) : Option (List Char) :=
  match v with
  | '"' :: rest =>
    match splitFirstChar '"' rest with
    | some (content, []) => some content
    | _ => none
  | _ => if v ≠ [] ∧ v.all isTokenChar = true then some v else none

/-- Modelled from the spec: one semicolon-separated piece of a forwarded
element (external Forwarded parser, not under src/). An all-space piece is an
allowed empty pair and is skipped (inner some none); a piece without an equals
sign, with a non-token key, or with an invalid value is a parse error (outer
none). -/
def parsePairOpt (piece : List Char) : Option (Option (List Char × List Char)) :=
  let p := trimSpaces piece
  if p = [] then some none
  else
    match splitFirstChar '=' p with
    | none => none
    | some (k, v) =>
      if k ≠ [] ∧ k.all isTokenChar = true then
        match parseValue v with
        | some w => some (some (k, w))
        | none => none
      else none

/-- Modelled from the spec: one comma-separated forwarded element, a
semicolon-separated list of pairs (external Forwarded parser, not under
src/). -/
def parseElement (elem : List Char) : Option (List (List Char × List Char)) :=
  ((splitOnChar ';' elem).mapM parsePairOpt).map (fun l => l.filterMap id)

/-- Modelled from the spec: Forwarded::parse followed by forwarded_for of the
external Forwarded parser crate (not under src/): parse the comma-separated
element chain, failing wholesale on any malformed pair, and collect the values
of the client-address (for) pairs in order. -/
def forwardedParse (h : List Char) : Option (List (List Char)) :=
  ((splitOnChar ',' h).mapM parseElement).map
    (fun els => els.flatten.filterMap (fun kv => if kv.1 = "for".toList then some kv.2 else none))

/-- get_original_src_from_fwded from src/proxy.rs, taking the forwarded header
value (absent when the request has no such header): parse the header, take the
last client-address entry, and extract its IP; every failure is absence. -/
def get_original_src_from_fwded (h : Option (List Char)) : Option IpAddr :=
  match h with
  | none => none
  | some rh =>
    match forwardedParse rh with
    | none => none
    | some fs =>
      match fs.getLast? with
      | none => none
      | some f => parse_socket_or_ip f

/-- Modelled from the spec: socket::to_canonical (crate::socket is not under
src/): map an IPv4-mapped IPv6 address down to the embedded IPv4 address,
keeping the port; leave every other address unchanged. -/
def to_canonical (sa : SockAddr) : SockAddr :=
  match sa.ip with
  | .v6 [0, 0, 0, 0, 0, 65535, g6, g7] =>
    ⟨.v4 (g6 / 256) (g6 % 256) (g7 / 256) (g7 % 256), sa.port⟩
  | _ => sa

/-- IpAddr::is_ipv4. -/
def IpAddr.is_ipv4 : IpAddr → Bool
  | .v4 _ _ _ _ => true
  | .v6 _ => false

/-- Outcomes of the external socket calls freebind_connect performs, passed in
as an environment: TcpStream::connect, TcpSocket::new_v4 / new_v6,
socket::set_freebind_and_transparent, TcpSocket::bind, TcpSocket::connect.
Streams are abstracted as numeric handles. -/
structure ConnectEnv where
  tcpConnect : Except Nat Nat
  newSocket : Except Nat Unit
  setFreebindTransparent : Except Nat Unit
  bindLocal : Except Nat Unit
  socketConnect : Except Nat Nat
deriving Repr

/-- One attempted external call of freebind_connect, recorded in order. -/
inductive SockEv where
  | evConnect (a : SockAddr)
  | evNewSocket (v4 : Bool)
  | evSetFbt
  | evBind (a : SockAddr)
  | evSockConnect (a : SockAddr)
deriving DecidableEq, Repr

/-- freebind_connect from src/proxy.rs: with no source override, or a source
equal to the canonicalized destination IP, a plain connect; otherwise allocate
a socket of the matching family (propagating allocation failure), attempt the
freebind/transparent socket options, on their success attempt the bind to the
source with port 0, ignoring failures of either with a warning, and finally
connect. The second component is the trace of attempted external calls. -/
def freebind_connect (env : ConnectEnv) (localIp : Option IpAddr) (addr : SockAddr) :
    Except Nat Nat × List SockEv :=
  match localIp with
  | none => (env.tcpConnect, [.evConnect addr])
  | some src =>
    if src = (to_canonical addr).ip then (env.tcpConnect, [.evConnect addr])
    else
      match env.newSocket with
      | .error e => (.error e, [.evNewSocket src.is_ipv4])
      | .ok _ =>
        let local_addr : SockAddr := ⟨src, 0⟩
        match env.setFreebindTransparent with
        | .error _ =>
          (env.socketConnect, [.evNewSocket src.is_ipv4, .evSetFbt, .evSockConnect addr])
        | .ok _ =>
          (env.socketConnect,
           [.evNewSocket src.is_ipv4, .evSetFbt, .evBind local_addr, .evSockConnect addr])

/-- The shared inputs bundle of src/proxy.rs. The opaque capability fields
(configuration, certificate provider, workload information, metrics) play no
role in the orchestration claims and are elided; the mutable tunnel port is
kept. -/
structure ProxyInputs where
  hbone_port : Nat
deriving DecidableEq, Repr

/-- A bound listener, reduced to its bound port. -/
structure Listener where
  port : Nat
deriving DecidableEq, Repr

/-- Modelled from the spec: the four listener-role constructors
(Inbound::new, InboundPassthrough::new, Outbound::new, Socks5::new live in
submodules that are not under src/). Each takes its clone of the shared inputs,
binds its own listening address during construction, and returns the bound
listener or the bind error; only the inbound listener's bound port is consumed
afterwards, so the other three results are reduced to success or error. -/
structure RoleEnv where
  inboundNew : ProxyInputs → Except Nat Listener
  inboundPassthroughNew : ProxyInputs → Except Nat Unit
  outboundNew : ProxyInputs → Except Nat Unit
  socks5New : ProxyInputs → Except Nat Unit

/-- The constructed proxy, holding the successfully built roles (reduced to
the inbound listener, the only one whose state the claims mention). -/
structure Proxy where
  inbound : Listener
deriving DecidableEq, Repr

/-- Proxy::new from src/proxy.rs: build the shared inputs with tunnel port 0,
construct the inbound (tunnel) listener first, write its bound port back into
the shared inputs, then construct the passthrough, outbound and socks5 roles
from the updated inputs, propagating the first constructor error. -/
def Proxy.new (env : RoleEnv) : Except Nat Proxy :=
  let pi : ProxyInputs := ⟨0⟩
  match env.inboundNew pi with
  | .error e => .error e
  | .ok inbound =>
    let pi2 : ProxyInputs := ⟨(inbound.port)⟩
    match env.inboundPassthroughNew pi2 with
    | .error e => .error e
    | .ok _ =>
      match env.outboundNew pi2 with
      | .error e => .error e
      | .ok _ =>
        match env.socks5New pi2 with
        | .error e => .error e
        | .ok _ => .ok ⟨inbound⟩

/-- A concrete role environment in which the inbound constructor fails,
used to witness the orchestrator theorem. -/
def roleEnvInboundFails : RoleEnv :=
  ⟨fun _ => .error 3, fun _ => .ok (), fun _ => .ok (), fun _ => .ok ()⟩

/-- A concrete socket-call environment in which the freebind/transparent
option call fails, used to witness the freebind_connect theorems. -/
def connEnvW : ConnectEnv :=
  ⟨.ok 1, .ok (), .error 5, .ok (), .ok 2⟩

/-- maybe_set_transparent from src/proxy.rs. The outcome the external
socket::set_transparent call would have is passed as `setTransparentRes`; the
second component of the result records whether that call was attempted. -/
def maybe_set_transparent (enable_original_source : Option Bool)
    (setTransparentRes : Except Nat Unit) : Except Nat Bool × Bool :=
  match enable_original_source with
  | some true =>
    (match setTransparentRes with
     | .error e => .error e
     | .ok _ => .ok true,
     true)
  | some false => (.ok false, false)
  | none =>
    (.ok (match setTransparentRes with
          | .ok _ => true
          | .error _ => false),
     true)

/-! Lemmas about the relay model. -/

theorem ioCopy_clean (chunks : List (List Nat)) : ∀ w : WriteState,
    ioCopy w chunks none =
      .ok ((chunks.map List.length).sum, ⟨w.written ++ chunks.flatten, w.halfClosed⟩) := by
  induction chunks with
  | nil => intro w; simp [ioCopy]
  | cons c rest ih =>
    intro w
    simp [ioCopy, ih, List.append_assoc]

theorem ioCopy_fail (chunks : List (List Nat)) (e : Nat) : ∀ w : WriteState,
    ioCopy w chunks (some e) = .error e := by
  induction chunks with
  | nil => intro w; rfl
  | cons c rest ih => intro w; simp [ioCopy, ih]

theorem runDirection_readFail (src : InStream) (sErr : Option Nat) (e : Nat)
    (h : src.readFail = some e) : runDirection src sErr = .error e := by
  unfold runDirection
  rw [h, ioCopy_fail]

theorem runDirection_shutFail (src : InStream) (e : Nat) (h : src.readFail = none) :
    runDirection src (some e) = .error e := by
  unfold runDirection
  rw [h, ioCopy_clean]
  rfl

theorem runDirection_clean (src : InStream) (h : src.readFail = none) :
    runDirection src none = .ok (streamLen src, ⟨src.chunks.flatten, true⟩) := by
  unfold runDirection
  rw [h, ioCopy_clean]
  simp [shutdownWrite, streamLen]

theorem runDirection_ok (src : InStream) (sErr : Option Nat) (p : Nat × WriteState)
    (h : runDirection src sErr = .ok p) : src.readFail = none ∧ sErr = none := by
  rcases hf : src.readFail with _ | e
  · rcases hs : sErr with _ | e2
    · exact ⟨rfl, rfl⟩
    · rw [hs, runDirection_shutFail src e2 hf] at h
      cases h
  · rw [runDirection_readFail src sErr e hf] at h
    cases h

/-- Claim C1: for finite input streams in which A bytes flow from the tunnel
side to the TCP side and B bytes flow from the TCP side to the tunnel side and
both reach clean end-of-stream, copy_hbone succeeds and returns the counter
pair with sent = B and received = A, each direction's write half has received
exactly its source's bytes, and each direction's write half has been explicitly
shut down (the shutdown is performed, by construction of runDirection, after
the copy of that direction reached end-of-stream). -/
theorem copy_hbone_success_counts (tunnelIn tcpIn : InStream)
    (h1 : tunnelIn.readFail = none) (h2 : tcpIn.readFail = none) :
    copy_hbone tunnelIn tcpIn none none =
      .ok ⟨streamLen tcpIn, streamLen tunnelIn,
        ⟨tunnelIn.chunks.flatten, true⟩, ⟨tcpIn.chunks.flatten, true⟩⟩ := by
  unfold copy_hbone
  rw [runDirection_clean tunnelIn h1, runDirection_clean tcpIn h2]

/-- Witness for C1 at concrete streams: 3 bytes tunnel-to-tcp in two chunks and
4 bytes tcp-to-tunnel in one chunk give sent = 4 and received = 3 with both
write halves shut down. -/
theorem copy_hbone_success_counts_w :
    copy_hbone ⟨[[1, 2], [3]], none⟩ ⟨[[4, 5, 6, 7]], none⟩ none none =
      .ok ⟨4, 3, ⟨[1, 2, 3], true⟩, ⟨[4, 5, 6, 7], true⟩⟩ :=
  copy_hbone_success_counts ⟨[[1, 2], [3]], none⟩ ⟨[[4, 5, 6, 7]], none⟩ rfl rfl

/-- Claim C2: if either direction's I/O fails, copy_hbone resolves to that
failure and never returns a byte-count pair: a tunnel-side read failure is
returned as the relay's failure, a tcp-side read failure (with the other
direction clean) is returned as the relay's failure, and whenever any read or
shutdown of either direction fails the relay does not return a result. -/
theorem copy_hbone_failfast (tunnelIn tcpIn : InStream) (sTcp sTun : Option Nat) :
    (∀ e, tunnelIn.readFail = some e → copy_hbone tunnelIn tcpIn sTcp sTun = .error e)
  ∧ (∀ e, tunnelIn.readFail = none → sTcp = none → tcpIn.readFail = some e →
      copy_hbone tunnelIn tcpIn sTcp sTun = .error e)
  ∧ ((tunnelIn.readFail ≠ none ∨ tcpIn.readFail ≠ none ∨ sTcp ≠ none ∨ sTun ≠ none) →
      ∀ r, copy_hbone tunnelIn tcpIn sTcp sTun ≠ .ok r) := by
  refine ⟨?_, ?_, ?_⟩
  · intro e he
    unfold copy_hbone
    rw [runDirection_readFail tunnelIn sTcp e he]
  · intro e h1 hs h2
    subst hs
    unfold copy_hbone
    rw [runDirection_clean tunnelIn h1, runDirection_readFail tcpIn sTun e h2]
  · intro h r hok
    unfold copy_hbone at hok
    rcases hd1 : runDirection tunnelIn sTcp with e1 | p1
    · rw [hd1] at hok; cases hok
    · rcases hd2 : runDirection tcpIn sTun with e2 | p2
      · rw [hd1, hd2] at hok; cases hok
      · have o1 := runDirection_ok tunnelIn sTcp p1 hd1
        have o2 := runDirection_ok tcpIn sTun p2 hd2
        rcases h with h | h | h | h
        · exact h o1.1
        · exact h o2.1
        · exact h o1.2
        · exact h o2.2

/-- Witness for C2: a tunnel-side read error 5 makes the relay fail with 5. -/
theorem copy_hbone_failfast_w :
    copy_hbone ⟨[], some 5⟩ ⟨[], none⟩ none none = .error 5 :=
  (copy_hbone_failfast ⟨[], some 5⟩ ⟨[], none⟩ none none).1 5 rfl

/-- Claim C8: maybe_set_transparent with Some(true) and a failing socket-option
call returns that error; with Some(false) it returns Ok(false) without
attempting the call; with None it returns Ok of whether the attempt succeeded
and never returns an error. -/
theorem maybe_set_transparent_spec (res : Except Nat Unit) :
    (∀ e, res = .error e → (maybe_set_transparent (some true) res).1 = .error e)
  ∧ maybe_set_transparent (some false) res = (.ok false, false)
  ∧ (maybe_set_transparent none res).1 =
      .ok (match res with | .ok _ => true | .error _ => false)
  ∧ ∀ e, (maybe_set_transparent none res).1 ≠ .error e := by
  refine ⟨?_, rfl, rfl, ?_⟩
  · intro e he
    subst he
    rfl
  · intro e
    cases res <;> simp [maybe_set_transparent]

/-- Witness for C8: an explicit opt-in with a failing option call yields that
error. -/
theorem maybe_set_transparent_spec_w :
    (maybe_set_transparent (some true) (.error 7)).1 = .error 7 :=
  (maybe_set_transparent_spec (.error 7)).1 7 rfl

/-- Claim C9: freebind_connect with no source override, or with a source equal
to the canonicalized destination IP, performs a plain connect and attempts no
socket-option mutation (the call trace is exactly the one connect); in the
spoofing case, with socket allocation and the final connect succeeding, the
relay returns that connection regardless of the freebind/transparent and bind
outcomes, so their failures never abort the attempt. -/
theorem freebind_connect_policy (env : ConnectEnv) (addr : SockAddr) :
    freebind_connect env none addr = (env.tcpConnect, [.evConnect addr])
  ∧ (∀ src, src = (to_canonical addr).ip →
      freebind_connect env (some src) addr = (env.tcpConnect, [.evConnect addr]))
  ∧ (∀ src s, src ≠ (to_canonical addr).ip → env.newSocket = .ok () →
      env.socketConnect = .ok s → (freebind_connect env (some src) addr).1 = .ok s) := by
  refine ⟨rfl, ?_, ?_⟩
  · intro src h
    simp [freebind_connect, h]
  · intro src s h hn hc
    rcases hs : env.setFreebindTransparent with e2 | u <;>
      simp [freebind_connect, h, hn, hc, hs]

/-- Witness for C9: with a failing freebind/transparent call but successful
allocation and connect, the spoofing-case connect still succeeds. -/
theorem freebind_connect_policy_w :
    (freebind_connect connEnvW (some (.v4 1 2 3 4)) ⟨.v4 9 9 9 9, 80⟩).1 = .ok 2 :=
  (freebind_connect_policy connEnvW ⟨.v4 9 9 9 9, 80⟩).2.2 (.v4 1 2 3 4) 2 (by decide) rfl rfl

/-- Claim C10: in the spoofing case, if setting the freebind/transparent socket
options fails, the bind to the requested source is never attempted (the call
trace contains no bind event) and the connect proceeds on the allocated
socket. -/
theorem freebind_connect_skip_bind (env : ConnectEnv) (src : IpAddr) (addr : SockAddr) (e : Nat)
    (h : src ≠ (to_canonical addr).ip) (hn : env.newSocket = .ok ())
    (hf : env.setFreebindTransparent = .error e) :
    freebind_connect env (some src) addr =
      (env.socketConnect, [.evNewSocket src.is_ipv4, .evSetFbt, .evSockConnect addr])
  ∧ ∀ a, SockEv.evBind a ∉ (freebind_connect env (some src) addr).2 := by
  have h1 : freebind_connect env (some src) addr =
      (env.socketConnect, [.evNewSocket src.is_ipv4, .evSetFbt, .evSockConnect addr]) := by
    simp [freebind_connect, h, hn, hf]
  refine ⟨h1, ?_⟩
  intro a
  rw [h1]
  simp

/-- Witness for C10: with the freebind/transparent call failing with error 5,
the trace is allocate, option attempt, connect, with no bind. -/
theorem freebind_connect_skip_bind_w :
    freebind_connect connEnvW (some (.v4 1 2 3 4)) ⟨.v4 9 9 9 9, 80⟩ =
      (.ok 2, [.evNewSocket true, .evSetFbt, .evSockConnect ⟨.v4 9 9 9 9, 80⟩]) :=
  (freebind_connect_skip_bind connEnvW (.v4 1 2 3 4) ⟨.v4 9 9 9 9, 80⟩ 5
    (by decide) rfl rfl).1

/-- Claim C7: Proxy::new constructs the inbound (tunnel) listener first from
inputs with tunnel port 0 and hands the remaining three constructors inputs
carrying the inbound listener's bound port; if any of the four constructors
fails, Proxy::new returns exactly that error and produces no proxy value, and
when all succeed it returns the assembled proxy. -/
theorem proxy_new_spec (env : RoleEnv) :
    (∀ e, env.inboundNew ⟨0⟩ = .error e → Proxy.new env = .error e)
  ∧ ∀ inb, env.inboundNew ⟨0⟩ = .ok inb →
      ((∀ e, env.inboundPassthroughNew ⟨inb.port⟩ = .error e → Proxy.new env = .error e)
      ∧ (∀ e, env.inboundPassthroughNew ⟨inb.port⟩ = .ok () →
          env.outboundNew ⟨inb.port⟩ = .error e → Proxy.new env = .error e)
      ∧ (∀ e, env.inboundPassthroughNew ⟨inb.port⟩ = .ok () →
          env.outboundNew ⟨inb.port⟩ = .ok () →
          env.socks5New ⟨inb.port⟩ = .error e → Proxy.new env = .error e)
      ∧ (env.inboundPassthroughNew ⟨inb.port⟩ = .ok () →
          env.outboundNew ⟨inb.port⟩ = .ok () →
          env.socks5New ⟨inb.port⟩ = .ok () → Proxy.new env = .ok ⟨inb⟩)) := by
  constructor
  · intro e he
    simp [Proxy.new, he]
  · intro inb hi
    refine ⟨?_, ?_, ?_, ?_⟩
    · intro e hp
      simp [Proxy.new, hi, hp]
    · intro e hp ho
      simp [Proxy.new, hi, hp, ho]
    · intro e hp ho hs
      simp [Proxy.new, hi, hp, ho, hs]
    · intro hp ho hs
      simp [Proxy.new, hi, hp, ho, hs]

/-- Witness for C7: an environment whose inbound constructor fails with bind
error 3 makes construction fail with 3. -/
theorem proxy_new_spec_w : Proxy.new roleEnvInboundFails = .error 3 :=
  (proxy_new_spec roleEnvInboundFails).1 3 rfl

/-- Claim C4 (code bug evaluation): the 55-character input consisting of
"00", a dash, and 52 zero digits passes the length check, its first two
dash-separated segments decode, and the access to the missing third segment is
an out-of-bounds index: TraceParent::try_from panics instead of returning a
format error. -/
theorem traceparent_panic_on_missing_segments :
    TraceParent.try_from ('0' :: '0' :: '-' :: List.replicate 52 '0') = .panic := by
  decide

/-- Counterexample for claim C5: a 55-character input whose dash-separated
fields have widths 3, 31, 16, 2 — not the fixed widths 2, 32, 16, 2 — is
accepted by TraceParent::try_from, so a wrong field width does not cause the
parse to fail. -/
theorem traceparent_width_not_enforced :
    TraceParent.try_from
        ("000-0000000000000000000000000000000-0000000000000000-00".toList) =
      .ok ⟨0, 0, 0, 0⟩
  ∧ (splitOnChar '-'
        ("000-0000000000000000000000000000000-0000000000000000-00".toList)).map List.length =
      [3, 31, 16, 2]
  ∧ ("000-0000000000000000000000000000000-0000000000000000-00".toList).length = 55 := by
  refine ⟨by decide, by decide, by decide⟩

/-- Claim C6: the forwarded-header extraction maps the spec's literal inputs
exactly as listed — empty, for-less, malformed, unquoted-port and
unparseable-final-entry chains yield absence; a bare IPv4 yields it; a quoted
IPv4 with port yields the IP with the port stripped; a quoted bracketed IPv6
yields the IPv6; and in a multi-entry chain the last client-address entry
wins — always as an optional IP, never an error. -/
theorem forwarded_literal_cases :
    get_original_src_from_fwded (some ("".toList)) = none
  ∧ get_original_src_from_fwded (some ("proto=https".toList)) = none
  ∧ get_original_src_from_fwded (some ("abc".toList)) = none
  ∧ get_original_src_from_fwded (some ("for=192.0.2.43:80".toList)) = none
  ∧ get_original_src_from_fwded
      (some ("for=192.0.2.43, for=\"[2001:db8:cafe::17]\", for=unknown;proto=https".toList)) =
      none
  ∧ get_original_src_from_fwded (some ("for=192.0.2.43".toList)) = some (.v4 192 0 2 43)
  ∧ get_original_src_from_fwded (some ("for=\"192.0.2.43:80\"".toList)) =
      some (.v4 192 0 2 43)
  ∧ get_original_src_from_fwded (some ("for=\"[2001:db8:cafe::17]\"".toList)) =
      some (.v6 [0x2001, 0x0db8, 0xcafe, 0, 0, 0, 0, 0x17])
  ∧ get_original_src_from_fwded
      (some ("for=192.0.2.43, for=\"[2001:db8:cafe::17]\";proto=https".toList)) =
      some (.v6 [0x2001, 0x0db8, 0xcafe, 0, 0, 0, 0, 0x17]) := by
  refine ⟨by decide, by decide, by decide, by decide, by decide, by decide, by decide,
    by decide, by decide⟩

/-! Lemmas about hexadecimal formatting and parsing, leading to the
TraceParent round-trip. -/

theorem hexDigitVal_zero : hexDigitVal '0' = some 0 := by decide

theorem hexDigitVal_hexDigitChar (d : Nat) (h : d < 16) :
    hexDigitVal (hexDigitChar d) = some d := by
  interval_cases d <;> decide

theorem parseHexDigits_append (m : Nat) (xs ys : List Char) : ∀ acc : Nat,
    parseHexDigits m (xs ++ ys) acc =
      match parseHexDigits m xs acc with
      | some a => parseHexDigits m ys a
      | none => none := by
  induction xs with
  | nil => intro acc; rfl
  | cons c xs ih =>
    intro acc
    rcases hc : hexDigitVal c with _ | d
    · simp [parseHexDigits, hc]
    · by_cases hle : acc * 16 + d ≤ m
      · simp [parseHexDigits, hc, hle, ih]
      · simp [parseHexDigits, hc, hle]

theorem parseHexDigits_replicate_zero (m k : Nat) :
    parseHexDigits m (List.replicate k '0') 0 = some 0 := by
  induction k with
  | zero => rfl
  | succ k ih => simp [List.replicate, parseHexDigits, hexDigitVal_zero, ih]

theorem natHexDigits_pos (n : Nat) (h : n ≠ 0) :
    natHexDigits n = natHexDigits (n / 16) ++ [hexDigitChar (n % 16)] := by
  cases n with
  | zero => exact absurd rfl h
  | succ m => rw [natHexDigits]

theorem parseHexDigits_natHexDigits (m n : Nat) : ∀ acc : Nat,
    acc * 16 ^ (natHexDigits n).length + n ≤ m →
      parseHexDigits m (natHexDigits n) acc =
        some (acc * 16 ^ (natHexDigits n).length + n) := by
  induction n using Nat.strong_induction_on with
  | _ n ih =>
    intro acc hle
    by_cases h0 : n = 0
    · subst h0
      simp [natHexDigits, parseHexDigits]
    · have hdiv : n / 16 < n := Nat.div_lt_self (Nat.pos_of_ne_zero h0) (by decide)
      have hmod : n % 16 < 16 := Nat.mod_lt n (by decide)
      rw [natHexDigits_pos n h0] at hle ⊢
      rw [List.length_append, List.length_singleton] at hle ⊢
      have e1 : ∀ b : Nat, b * 16 ^ ((natHexDigits (n / 16)).length + 1) + n
          = (b * 16 ^ (natHexDigits (n / 16)).length + n / 16) * 16 + n % 16 := by
        intro b
        have hn : n / 16 * 16 + n % 16 = n := by omega
        have hr : (b * 16 ^ (natHexDigits (n / 16)).length + n / 16) * 16 + n % 16
            = b * (16 ^ (natHexDigits (n / 16)).length * 16) + (n / 16 * 16 + n % 16) := by
          ring
        rw [pow_succ, hr, hn]
      rw [parseHexDigits_append]
      rw [e1 acc] at hle
      have hle2 : acc * 16 ^ (natHexDigits (n / 16)).length + n / 16 ≤ m := by
        set A := acc * 16 ^ (natHexDigits (n / 16)).length with hA
        omega
      rw [ih (n / 16) hdiv acc hle2]
      rw [e1 acc]
      simp [parseHexDigits, hexDigitVal_hexDigitChar (n % 16) hmod, hle]

theorem parseHexDigits_rustHex (m n : Nat) (h : n ≤ m) :
    parseHexDigits m (rustHex n) 0 = some n := by
  by_cases h0 : n = 0
  · subst h0
    simp [rustHex, parseHexDigits, hexDigitVal_zero]
  · have := parseHexDigits_natHexDigits m n 0 (by simpa using h)
    simpa [rustHex, h0] using this

theorem natHexDigits_length_le (n : Nat) : ∀ w : Nat, n < 16 ^ w →
    (natHexDigits n).length ≤ w := by
  induction n using Nat.strong_induction_on with
  | _ n ih =>
    intro w hw
    by_cases h0 : n = 0
    · subst h0
      simp [natHexDigits]
    · cases w with
      | zero =>
        simp at hw
        omega
      | succ w =>
        rw [natHexDigits_pos n h0, List.length_append, List.length_singleton]
        have hdiv : n / 16 < n := Nat.div_lt_self (Nat.pos_of_ne_zero h0) (by decide)
        have hw2 : n / 16 < 16 ^ w := by
          rw [Nat.div_lt_iff_lt_mul (by decide : 0 < 16)]
          calc n < 16 ^ (w + 1) := hw
            _ = 16 ^ w * 16 := by rw [pow_succ]
        have := ih (n / 16) hdiv w hw2
        omega

theorem rustHex_length_le (n w : Nat) (h1 : 1 ≤ w) (h2 : n < 16 ^ w) :
    (rustHex n).length ≤ w := by
  by_cases h0 : n = 0
  · subst h0
    simpa [rustHex] using h1
  · simpa [rustHex, h0] using natHexDigits_length_le n w h2

theorem fmtHexPad_length (w n : Nat) (h1 : 1 ≤ w) (h2 : n < 16 ^ w) :
    (fmtHexPad w n).length = w := by
  have := rustHex_length_le n w h1 h2
  simp only [fmtHexPad, List.length_append, List.length_replicate]
  omega

theorem fmtHexPad_ne_nil (w n : Nat) (h1 : 1 ≤ w) (h2 : n < 16 ^ w) :
    fmtHexPad w n ≠ [] := by
  intro h
  have hl := fmtHexPad_length w n h1 h2
  rw [h] at hl
  simp at hl
  omega

theorem natHexDigits_chars (n : Nat) : ∀ c ∈ natHexDigits n,
    ∃ d, d < 16 ∧ c = hexDigitChar d := by
  induction n using Nat.strong_induction_on with
  | _ n ih =>
    intro c hc
    by_cases h0 : n = 0
    · subst h0
      simp [natHexDigits] at hc
    · rw [natHexDigits_pos n h0] at hc
      rcases List.mem_append.1 hc with h | h
      · exact ih (n / 16) (Nat.div_lt_self (Nat.pos_of_ne_zero h0) (by decide)) c h
      · refine ⟨n % 16, Nat.mod_lt n (by decide), ?_⟩
        simpa using h

theorem hexDigitChar_ne (d : Nat) (h : d < 16) :
    hexDigitChar d ≠ '-' ∧ hexDigitChar d ≠ '+' := by
  interval_cases d <;> exact ⟨by decide, by decide⟩

theorem fmtHexPad_chars (w n : Nat) : ∀ c ∈ fmtHexPad w n, c ≠ '-' ∧ c ≠ '+' := by
  intro c hc
  simp only [fmtHexPad, List.mem_append] at hc
  rcases hc with h | h
  · have := List.eq_of_mem_replicate h
    subst this
    exact ⟨by decide, by decide⟩
  · by_cases h0 : n = 0
    · rw [h0] at h
      simp [rustHex] at h
      subst h
      exact ⟨by decide, by decide⟩
    · rcases natHexDigits_chars n c (by simpa [rustHex, h0] using h) with ⟨d, hd, rfl⟩
      exact hexDigitChar_ne d hd

theorem fromStrRadix16_eq_parse (m : Nat) (cs : List Char) (h1 : cs ≠ [])
    (h2 : ∀ c ∈ cs, c ≠ '+') : fromStrRadix16 m cs = parseHexDigits m cs 0 := by
  cases cs with
  | nil => exact absurd rfl h1
  | cons c rest =>
    have hc : c ≠ '+' := h2 c (List.mem_cons_self c rest)
    simp [fromStrRadix16, hc]

theorem fromStrRadix16_fmtHexPad (m w n : Nat) (h1 : 1 ≤ w) (h2 : n < 16 ^ w)
    (h3 : n ≤ m) : fromStrRadix16 m (fmtHexPad w n) = some n := by
  rw [fromStrRadix16_eq_parse m _ (fmtHexPad_ne_nil w n h1 h2)
    (fun c hc => (fmtHexPad_chars w n c hc).2)]
  unfold fmtHexPad
  rw [parseHexDigits_append, parseHexDigits_replicate_zero]
  exact parseHexDigits_rustHex m n h3

theorem splitOnChar_sepFree (sep : Char) : ∀ xs : List Char,
    (∀ c ∈ xs, c ≠ sep) → splitOnChar sep xs = [xs] := by
  intro xs
  induction xs with
  | nil => intro _; rfl
  | cons c rest ih =>
    intro h
    have hc : c ≠ sep := h c (List.mem_cons_self c rest)
    rw [splitOnChar, if_neg hc, ih (fun d hd => h d (List.mem_cons_of_mem c hd))]

theorem splitOnChar_append (sep : Char) (ys : List Char) : ∀ xs : List Char,
    (∀ c ∈ xs, c ≠ sep) →
      splitOnChar sep (xs ++ sep :: ys) = xs :: splitOnChar sep ys := by
  intro xs
  induction xs with
  | nil =>
    intro _
    simp [splitOnChar]
  | cons c rest ih =>
    intro h
    have hc : c ≠ sep := h c (List.mem_cons_self c rest)
    rw [List.cons_append, splitOnChar, if_neg hc,
      ih (fun d hd => h d (List.mem_cons_of_mem c hd))]

theorem try_from_of_split (s s0 s1 s2 s3 : List Char) (rest : List (List Char))
    (hlen : s.length = 55) (hsp : splitOnChar '-' s = s0 :: s1 :: s2 :: s3 :: rest)
    (v tid pid fl : Nat)
    (p0 : fromStrRadix16 u8Max s0 = some v) (p1 : fromStrRadix16 u128Max s1 = some tid)
    (p2 : fromStrRadix16 u64Max s2 = some pid) (p3 : fromStrRadix16 u8Max s3 = some fl) :
    TraceParent.try_from s = .ok ⟨v, tid, pid, fl⟩ := by
  unfold TraceParent.try_from
  rw [if_neg (by simp [hlen])]
  simp only [hsp, p0, p1, p2, p3]

theorem try_from_ok_inv (s : List Char) (t : TraceParent)
    (h : TraceParent.try_from s = .ok t) :
    s.length = 55 ∧ ∃ s0 s1 s2 s3 rest,
      splitOnChar '-' s = s0 :: s1 :: s2 :: s3 :: rest ∧
      fromStrRadix16 u8Max s0 = some t.version ∧
      fromStrRadix16 u128Max s1 = some t.trace_id ∧
      fromStrRadix16 u64Max s2 = some t.parent_id ∧
      fromStrRadix16 u8Max s3 = some t.flags := by
  by_cases hl : s.length = 55
  · refine ⟨hl, ?_⟩
    unfold TraceParent.try_from at h
    rw [if_neg (by simp [hl])] at h
    repeat' split at h
    all_goals cases h
    exact ⟨_, _, _, _, _, by assumption, by assumption, by assumption, by assumption,
      by assumption⟩
  · simp [TraceParent.try_from, hl] at h

/-- Claim C3: for every TraceParent value with in-range fields (in particular
every generated one), rendering it to its canonical 55-character fixed-width
lowercase hex header form and parsing that string back succeeds and yields a
TraceParent equal to the original in all four fields. -/
theorem traceparent_roundtrip (v tid pid fl : Nat) (hv : v < 2 ^ 8)
    (ht : tid < 2 ^ 128) (hp : pid < 2 ^ 64) (hf : fl < 2 ^ 8) :
    TraceParent.try_from (TraceParent.debugFmt ⟨v, tid, pid, fl⟩) = .ok ⟨v, tid, pid, fl⟩ := by
  have e8 : (2 : Nat) ^ 8 = 16 ^ 2 := by norm_num
  have e128 : (2 : Nat) ^ 128 = 16 ^ 32 := by norm_num
  have e64 : (2 : Nat) ^ 64 = 16 ^ 16 := by norm_num
  have hv2 : v < 16 ^ 2 := e8 ▸ hv
  have ht2 : tid < 16 ^ 32 := e128 ▸ ht
  have hp2 : pid < 16 ^ 16 := e64 ▸ hp
  have hf2 : fl < 16 ^ 2 := e8 ▸ hf
  have lA : (fmtHexPad 2 v).length = 2 := fmtHexPad_length 2 v (by norm_num) hv2
  have lB : (fmtHexPad 32 tid).length = 32 := fmtHexPad_length 32 tid (by norm_num) ht2
  have lC : (fmtHexPad 16 pid).length = 16 := fmtHexPad_length 16 pid (by norm_num) hp2
  have lD : (fmtHexPad 2 fl).length = 2 := fmtHexPad_length 2 fl (by norm_num) hf2
  have hsplit : splitOnChar '-' (TraceParent.debugFmt ⟨v, tid, pid, fl⟩) =
      [fmtHexPad 2 v, fmtHexPad 32 tid, fmtHexPad 16 pid, fmtHexPad 2 fl] := by
    unfold TraceParent.debugFmt
    rw [splitOnChar_append '-' _ _ (fun c hc => (fmtHexPad_chars 2 v c hc).1),
      splitOnChar_append '-' _ _ (fun c hc => (fmtHexPad_chars 32 tid c hc).1),
      splitOnChar_append '-' _ _ (fun c hc => (fmtHexPad_chars 16 pid c hc).1),
      splitOnChar_sepFree '-' _ (fun c hc => (fmtHexPad_chars 2 fl c hc).1)]
  have hlen : (TraceParent.debugFmt ⟨v, tid, pid, fl⟩).length = 55 := by
    unfold TraceParent.debugFmt
    simp only [List.length_append, List.length_cons, lA, lB, lC, lD]
  have pA : fromStrRadix16 u8Max (fmtHexPad 2 v) = some v :=
    fromStrRadix16_fmtHexPad u8Max 2 v (by norm_num) hv2 (by unfold u8Max; omega)
  have pB : fromStrRadix16 u128Max (fmtHexPad 32 tid) = some tid :=
    fromStrRadix16_fmtHexPad u128Max 32 tid (by norm_num) ht2 (by unfold u128Max; omega)
  have pC : fromStrRadix16 u64Max (fmtHexPad 16 pid) = some pid :=
    fromStrRadix16_fmtHexPad u64Max 16 pid (by norm_num) hp2 (by unfold u64Max; omega)
  have pD : fromStrRadix16 u8Max (fmtHexPad 2 fl) = some fl :=
    fromStrRadix16_fmtHexPad u8Max 2 fl (by norm_num) hf2 (by unfold u8Max; omega)
  exact try_from_of_split _ _ _ _ _ [] hlen hsplit v tid pid fl pA pB pC pD

/-- Witness for C3 at a concrete TraceParent. -/
theorem traceparent_roundtrip_w :
    TraceParent.try_from (TraceParent.debugFmt ⟨0, 10, 11, 1⟩) = .ok ⟨0, 10, 11, 1⟩ :=
  traceparent_roundtrip 0 10 11 1 (by norm_num) (by norm_num) (by norm_num) (by norm_num)

/-- Claim C5 (amended): TraceParent parsing fails with a format error unless
the input is exactly 55 characters, and a parse succeeds exactly when, in
addition, the first four dash-separated fields each decode as (optionally
plus-signed) hexadecimal integers within the u8, u128, u64, u8 ranges; the
individual field widths 2, 32, 16, 2 are not themselves checked, and fewer
than four dash-separated fields triggers a panic rather than an error. -/
theorem traceparent_parse_characterization (s : List Char) :
    (s.length ≠ 55 → TraceParent.try_from s = .err)
  ∧ ∀ t : TraceParent, TraceParent.try_from s = .ok t ↔
      (s.length = 55 ∧ ∃ s0 s1 s2 s3 rest,
        splitOnChar '-' s = s0 :: s1 :: s2 :: s3 :: rest ∧
        fromStrRadix16 u8Max s0 = some t.version ∧
        fromStrRadix16 u128Max s1 = some t.trace_id ∧
        fromStrRadix16 u64Max s2 = some t.parent_id ∧
        fromStrRadix16 u8Max s3 = some t.flags) := by
  constructor
  · intro h
    simp [TraceParent.try_from, h]
  · intro t
    constructor
    · intro h
      exact try_from_ok_inv s t h
    · rintro ⟨hl, s0, s1, s2, s3, rest, hsg, p0, p1, p2, p3⟩
      exact try_from_of_split s s0 s1 s2 s3 rest hl hsg t.version t.trace_id t.parent_id
        t.flags p0 p1 p2 p3

/-- Witness for C5: a one-character input is rejected with a format error. -/
theorem traceparent_parse_characterization_w :
    TraceParent.try_from ['a'] = .err :=
  (traceparent_parse_characterization ['a']).1 (by decide)

end Ztunnel
